import Mathlib

/-!
Formal model of the Black Orchid proxy handler (src/black_orchid.py).

The `ProxyHandler` class owns four pieces of mutable state: `registry`
(tool name to tool metadata), `_name_tracker` (original function name to
the ordered history of `(module_name, final_tool_name)` pairs),
`loaded_mods` (module name to executed module object) and
`rejected_modules` (list of `(path, reason)` pairs).  Python dictionaries
are modelled as association lists with insertion-order semantics
(assignment updates an existing key in place, otherwise appends at the
end; `pop`/`del` remove the entry).  Python objects bound in a module
namespace are modelled by `PyObject`: an identity tag, a callability flag
and a docstring; module execution itself (`exec_module`, `importlib.reload`)
is modelled atomically by an oracle that produces the resulting namespace
or the raised error detail.  Message strings are modelled without the
quote punctuation of the originals.
-/

namespace BlackOrchid

/-- A Python object bound to a top-level name of an executed module
namespace: `fnId` models object identity, `isCallable` the result of
`callable(obj)`, and `doc` the `__doc__` attribute. -/
structure PyObject where
  fnId : Nat
  isCallable : Bool
  doc : Option String
deriving DecidableEq, Repr

/-- The namespace of an executed module: its top-level bindings. -/
abbrev PyModule := List (String × PyObject)

/-- One row of `self.registry`, as built by `_register_tool`
(src/black_orchid.py lines 141-147 and 152-158). -/
structure ToolEntry where
  function : PyObject
  docstring : Option String
  source_module : String
  original_name : String
  had_collision : Bool
deriving DecidableEq, Repr

/-- The mutable state of a `ProxyHandler` instance: `registry`,
`_name_tracker`, `loaded_mods` and `rejected_modules`. -/
structure HandlerState where
  registry : List (String × ToolEntry)
  name_tracker : List (String × List (String × String))
  loaded_mods : List (String × PyModule)
  rejected_modules : List (String × String)
deriving DecidableEq, Repr

/-! ## Python dict operations on association lists -/

/-- `d[k]` lookup returning `none` when the key is absent. -/
def dictGet {α : Type} : List (String × α) → String → Option α
  | [], _ => none
  | (k, v) :: rest, key => if k = key then some v else dictGet rest key

/-- `d[k] = v`: update in place if the key exists, else append at the end
(Python 3.7+ insertion-order semantics). -/
def dictSet {α : Type} : List (String × α) → String → α → List (String × α)
  | [], key, val => [(key, val)]
  | (k, v) :: rest, key, val =>
      if k = key then (k, val) :: rest else (k, v) :: dictSet rest key val

/-- `d.pop(k)` / `del d[k]`: remove the (first) entry with the given key. -/
def dictPop {α : Type} : List (String × α) → String → List (String × α)
  | [], _ => []
  | (k, v) :: rest, key => if k = key then rest else (k, v) :: dictPop rest key

/-- `list(d.keys())`. -/
def dictKeys {α : Type} (d : List (String × α)) : List String := d.map Prod.fst

@[simp] theorem dictGet_nil {α : Type} (k : String) : dictGet ([] : List (String × α)) k = none := rfl

theorem dictGet_dictSet_self {α : Type} (d : List (String × α)) (k : String) (v : α) :
    dictGet (dictSet d k v) k = some v := by
  induction d with
  | nil => simp [dictGet, dictSet]
  | cons p rest ih =>
      obtain ⟨k', v'⟩ := p
      by_cases h : k' = k
      · subst h; simp [dictGet, dictSet]
      · simp [dictGet, dictSet, h, ih]

theorem dictGet_dictSet_ne {α : Type} (d : List (String × α)) (k k' : String) (v : α)
    (h : k' ≠ k) : dictGet (dictSet d k v) k' = dictGet d k' := by
  induction d with
  | nil => simp [dictGet, dictSet, Ne.symm h]
  | cons p rest ih =>
      obtain ⟨k0, v0⟩ := p
      by_cases h0 : k0 = k
      · subst h0
        simp [dictSet, dictGet, Ne.symm h]
      · by_cases h1 : k0 = k'
        · subst h1; simp [dictSet, h0, dictGet]
        · simp [dictSet, h0, dictGet, h1, ih]

theorem dictGet_eq_none_iff {α : Type} (d : List (String × α)) (k : String) :
    dictGet d k = none ↔ ∀ p ∈ d, p.1 ≠ k := by
  induction d with
  | nil => simp
  | cons p rest ih =>
      obtain ⟨k0, v0⟩ := p
      by_cases h : k0 = k
      · subst h; simp [dictGet]
      · simp [dictGet, h, ih]

theorem dictGet_mem {α : Type} {d : List (String × α)} {k : String} {v : α}
    (h : dictGet d k = some v) : (k, v) ∈ d := by
  induction d with
  | nil => simp [dictGet] at h
  | cons p rest ih =>
      obtain ⟨k0, v0⟩ := p
      by_cases h0 : k0 = k
      · subst h0
        simp only [dictGet, if_true, eq_self_iff_true, if_pos, Option.some.injEq] at h
        subst h; exact List.mem_cons_self _ _
      · simp only [dictGet, if_neg h0] at h
        exact List.mem_cons_of_mem _ (ih h)

theorem mem_dictSet {α : Type} {d : List (String × α)} {k : String} {v : α} {p : String × α}
    (h : p ∈ dictSet d k v) : p = (k, v) ∨ p ∈ d := by
  induction d with
  | nil => simpa [dictSet] using h
  | cons q rest ih =>
      obtain ⟨k0, v0⟩ := q
      by_cases h0 : k0 = k
      · subst h0
        simp only [dictSet, if_pos rfl] at h
        rcases List.mem_cons.mp h with h1 | h1
        · subst h1; exact Or.inl rfl
        · exact Or.inr (List.mem_cons_of_mem _ h1)
      · simp only [dictSet, if_neg h0] at h
        rcases List.mem_cons.mp h with h1 | h1
        · subst h1; exact Or.inr (List.mem_cons_self _ _)
        · rcases ih h1 with h2 | h2
          · exact Or.inl h2
          · exact Or.inr (List.mem_cons_of_mem _ h2)

theorem mem_dictPop {α : Type} {d : List (String × α)} {k : String} {p : String × α}
    (h : p ∈ dictPop d k) : p ∈ d := by
  induction d with
  | nil => simp [dictPop] at h
  | cons q rest ih =>
      obtain ⟨k0, v0⟩ := q
      by_cases h0 : k0 = k
      · subst h0
        simp only [dictPop, if_pos rfl] at h
        exact List.mem_cons_of_mem _ h
      · simp only [dictPop, if_neg h0] at h
        rcases List.mem_cons.mp h with h1 | h1
        · subst h1; exact List.mem_cons_self _ _
        · exact List.mem_cons_of_mem _ (ih h1)

/-- Setting a key that is absent from the dict appends the new entry. -/
theorem dictSet_fresh_eq_append {α : Type} {d : List (String × α)} {k : String} (v : α)
    (h : dictGet d k = none) : dictSet d k v = d ++ [(k, v)] := by
  induction d with
  | nil => simp [dictSet]
  | cons p rest ih =>
      obtain ⟨k0, v0⟩ := p
      by_cases h0 : k0 = k
      · subst h0; simp [dictGet] at h
      · simp only [dictGet, if_neg h0] at h
        simp [dictSet, h0, ih h]

/-- Popping a freshly set key restores the original dict. -/
theorem dictPop_dictSet_fresh {α : Type} {d : List (String × α)} {k : String} (v : α)
    (h : dictGet d k = none) : dictPop (dictSet d k v) k = d := by
  induction d with
  | nil => simp [dictSet, dictPop]
  | cons p rest ih =>
      obtain ⟨k0, v0⟩ := p
      by_cases h0 : k0 = k
      · subst h0; simp [dictGet] at h
      · simp only [dictGet, if_neg h0] at h
        simp [dictSet, h0, dictPop, ih h]

theorem dictGet_append_right {α : Type} {d e : List (String × α)} {k : String}
    (h : dictGet d k = none) : dictGet (d ++ e) k = dictGet e k := by
  induction d with
  | nil => simp
  | cons p rest ih =>
      obtain ⟨k0, v0⟩ := p
      by_cases h0 : k0 = k
      · subst h0; simp [dictGet] at h
      · simp only [dictGet, if_neg h0] at h
        simpa [dictGet, h0] using ih h

theorem dictGet_singleton_ne {α : Type} (k k' : String) (v : α) (h : k' ≠ k) :
    dictGet [(k, v)] k' = none := by
  simp [dictGet, Ne.symm h]

/-- With no duplicate keys, entries are determined by their key. -/
theorem nodup_keys_inj {α : Type} {d : List (String × α)}
    (hnd : (d.map Prod.fst).Nodup) {p q : String × α}
    (hp : p ∈ d) (hq : q ∈ d) (hk : p.1 = q.1) : p = q := by
  induction d with
  | nil => simp at hp
  | cons r rest ih =>
      simp only [List.map_cons, List.nodup_cons] at hnd
      rcases List.mem_cons.mp hp with h1 | h1 <;> rcases List.mem_cons.mp hq with h2 | h2
      · subst h1; subst h2; rfl
      · subst h1
        exact absurd (hk ▸ List.mem_map_of_mem Prod.fst h2) hnd.1
      · subst h2
        exact absurd (hk ▸ List.mem_map_of_mem Prod.fst h1) hnd.1
      · exact ih hnd.2 h1 h2

/-! ## String helpers modelling the Python predicates -/

/-- Python `str.islower()` restricted to ASCII identifiers: every cased
character is lowercase and at least one cased character exists. -/
def pyIslower (s : String) : Bool :=
  s.data.any Char.isLower && s.data.all (fun c => !c.isUpper)

/-- Python `x.startswith('_')`. -/
def startsWithUnderscore (s : String) : Bool :=
  match s.data with
  | [] => false
  | c :: _ => c = '_'

/-- Helper for the substring test `"__" in x` over the character list. -/
def hasDdAux : List Char → Bool
  | [] => false
  | [_] => false
  | c1 :: c2 :: rest => (c1 = '_' && c2 = '_') || hasDdAux (c2 :: rest)

/-- Python `"__" in x`: the name contains two consecutive underscores. -/
def hasDoubleUnderscore (s : String) : Bool := hasDdAux s.data

/-- Lexicographic comparison of names by character codes, matching the
sort order Python uses for ASCII identifiers in `dir()`. -/
def strLtB : List Char → List Char → Bool
  | [], [] => false
  | [], _ :: _ => true
  | _ :: _, [] => false
  | a :: as, b :: bs =>
      if a.toNat < b.toNat then true
      else if b.toNat < a.toNat then false
      else strLtB as bs

/-- String comparison over the character lists. -/
def strLt (a b : String) : Bool := strLtB a.data b.data

/-- Insertion into a sorted list of names, for the model of `dir()`. -/
def insertSorted (s : String) : List String → List String
  | [] => [s]
  | t :: ts => if strLt t s then t :: insertSorted s ts else s :: t :: ts

/-- Sort a list of names; `dir(module)` returns the namespace names in
sorted order. -/
def sortStrings : List String → List String
  | [] => []
  | s :: ss => insertSorted s (sortStrings ss)

/-- Model of `dir(tmod)`: the sorted top-level names of the namespace. -/
def pyDir (ns : PyModule) : List String := sortStrings (ns.map Prod.fst)

theorem mem_insertSorted (s x : String) (l : List String) :
    x ∈ insertSorted s l ↔ x = s ∨ x ∈ l := by
  induction l with
  | nil => simp [insertSorted]
  | cons t ts ih =>
      by_cases h : strLt t s = true
      · simp only [insertSorted, if_pos h, List.mem_cons, ih]
        tauto
      · simp only [insertSorted, if_neg h, List.mem_cons]

theorem mem_sortStrings (x : String) (l : List String) :
    x ∈ sortStrings l ↔ x ∈ l := by
  induction l with
  | nil => simp [sortStrings]
  | cons s ss ih => simp [sortStrings, mem_insertSorted, ih]

theorem mem_pyDir (x : String) (ns : PyModule) :
    x ∈ pyDir ns ↔ ∃ o, (x, o) ∈ ns := by
  simp only [pyDir, mem_sortStrings, List.mem_map]
  constructor
  · rintro ⟨⟨n, o⟩, hmem, rfl⟩; exact ⟨o, hmem⟩
  · rintro ⟨o, hmem⟩; exact ⟨(x, o), hmem, rfl⟩

/-! ## Extraction filters

Three separate code sites compute the list of names to register:
startup (`__init__`, line 99), full reload (`reload_all_modules`,
line 244) and single-module reload (`reload_module`, line 300).  The
first two read
`[x for x in dir(tmod) if "__" not in x and x.islower() and not x.startswith('_')]`;
the third reads `[x for x in dir(reloaded_module) if "__" not in x and x.islower()]`.
-/

/-- Name filter used by `__init__` (src/black_orchid.py line 99). -/
def cleanStartup (ns : PyModule) : List String :=
  (pyDir ns).filter (fun x => !hasDoubleUnderscore x && pyIslower x && !startsWithUnderscore x)

/-- Name filter used by `reload_all_modules` (src/black_orchid.py line 244). -/
def cleanReloadAll (ns : PyModule) : List String :=
  (pyDir ns).filter (fun x => !hasDoubleUnderscore x && pyIslower x && !startsWithUnderscore x)

/-- Name filter used by `reload_module` (src/black_orchid.py line 300);
note the missing `not x.startswith('_')` clause. -/
def cleanReloadOne (ns : PyModule) : List String :=
  (pyDir ns).filter (fun x => !hasDoubleUnderscore x && pyIslower x)

/-- Fallback object for `getattr`; never reached because the filtered
names all come from `dir` of the same namespace. -/
def defaultObj : PyObject := ⟨0, false, none⟩

/-- `getattr(tmod, fn_name)` for a name known to be in the namespace. -/
def getattrD (ns : PyModule) (n : String) : PyObject := (dictGet ns n).getD defaultObj

/-- Spec-side definition, for comparison with the source filters.
Modelled from the spec (section 4.2): top-level names that are
(a) callable, (b) written in all-lowercase form, (c) do not begin with an
underscore, and (d) are not internal/dunder names (read as names of the
form `__...__`). -/
def startsWithTwoUnderscores (s : String) : Bool :=
  match s.data with
  | '_' :: '_' :: _ => true
  | _ => false

def endsWithTwoUnderscores (s : String) : Bool :=
  match s.data.reverse with
  | '_' :: '_' :: _ => true
  | _ => false

def specEligibleNames (ns : PyModule) : List String :=
  (pyDir ns).filter (fun x =>
    (getattrD ns x).isCallable && pyIslower x && !startsWithUnderscore x
      && !(startsWithTwoUnderscores x && endsWithTwoUnderscores x))

/-! ## Registration with collision detection -/

/-- `ProxyHandler._register_tool` (src/black_orchid.py lines 116-160),
transcribed branch for branch.  The history list stored in
`_name_tracker` is never empty when present, so the `headD` default is
unreachable; it is chosen arbitrarily. -/
def register_tool (st : HandlerState) (original_name module_name : String)
    (function : PyObject) : HandlerState :=
  match dictGet st.name_tracker original_name with
  | some history =>
      -- collision detected
      let first := history.headD (module_name, original_name)
      let first_module := first.1
      let first_tool_name := first.2
      -- retroactively rename the first occurrence if it still holds the
      -- bare name and that bare key is still present in the registry
      let st1 :=
        if first_tool_name = original_name then
          match dictGet st.registry original_name with
          | some oldEntry =>
              let new_first_name := original_name ++ "_" ++ first_module
              { st with
                registry := dictSet (dictPop st.registry original_name) new_first_name
                  { oldEntry with had_collision := true },
                name_tracker := dictSet st.name_tracker original_name
                  (history.set 0 (first_module, new_first_name)) }
          | none => st
        else st
      -- register the new one with suffix
      let new_tool_name := original_name ++ "_" ++ module_name
      let newEntry : ToolEntry :=
        { function := function, docstring := function.doc,
          source_module := module_name, original_name := original_name,
          had_collision := true }
      let history1 := (dictGet st1.name_tracker original_name).getD history
      { st1 with
        registry := dictSet st1.registry new_tool_name newEntry,
        name_tracker := dictSet st1.name_tracker original_name
          (history1 ++ [(module_name, new_tool_name)]) }
  | none =>
      -- first time seeing this name
      { st with
        registry := dictSet st.registry original_name
          { function := function, docstring := function.doc,
            source_module := module_name, original_name := original_name,
            had_collision := false },
        name_tracker := dictSet st.name_tracker original_name
          [(module_name, original_name)] }

/-- The per-module registration loop: `for fn_name in clean_list:
self._register_tool(fn_name, mod_name, getattr(tmod, fn_name))`. -/
def registerModule (st : HandlerState) (mod_name : String) (ns : PyModule)
    (names : List String) : HandlerState :=
  names.foldl (fun s n => register_tool s n mod_name (getattrD ns n)) st

/-! ## Discovery and validation -/

/-- Result of reading and `ast.parse`-checking a candidate file. -/
inductive ReadOutcome where
  | parseOk
  | parseFailed
  | readFailed (detail : String)
deriving DecidableEq, Repr

/-- A file produced by the glob scan.  `rawPath` is the glob result
string, `resolved` the components of `Path(raw).resolve()` (symlink-free),
`resolvedStr` its string form `str(mod_path)`, and `stem` the final
component without extension. -/
structure Candidate where
  rawPath : String
  resolved : List String
  resolvedStr : String
  stem : String
  read : ReadOutcome
deriving DecidableEq, Repr

/-- One iteration of the validation loop shared verbatim by `__init__`
(lines 56-79) and `reload_all_modules` (lines 190-213): path-containment
check, reserved-name skip, then read and syntax-check.  The accumulator
holds `(okmods, rejected_modules)`.  `is_relative_to` on resolved
absolute paths is component-prefix testing. -/
def validateStep (dirs : List (List String))
    (acc : List Candidate × List (String × String)) (c : Candidate) :
    List Candidate × List (String × String) :=
  let is_valid_path := dirs.any (fun d => List.isPrefixOf d c.resolved)
  if is_valid_path then
    if c.stem = "toolset" then acc
    else
      match c.read with
      | ReadOutcome.parseOk => (acc.1 ++ [c], acc.2)
      | ReadOutcome.parseFailed => (acc.1, acc.2 ++ [(c.rawPath, "syntax_error")])
      | ReadOutcome.readFailed d => (acc.1, acc.2 ++ [(c.rawPath, "read_error: " ++ d)])
  else
    (acc.1, acc.2 ++ [(c.rawPath, "path_traversal_attempt")])

/-- The whole validation pass over the scanned candidates. -/
def validateCandidates (dirs : List (List String)) (cs : List Candidate) :
    List Candidate × List (String × String) :=
  cs.foldl (validateStep dirs) ([], [])

/-! ## Loading -/

/-- Outcome of creating a spec and executing a candidate module:
`skip` models `spec_from_file_location` returning no usable spec
(a `continue` in the source), `err` models an exception raised during
execution with its detail string, `ok` the resulting namespace. -/
inductive LoadOutcome where
  | skip
  | err (detail : String)
  | ok (ns : PyModule)
deriving DecidableEq, Repr

/-- The environment of a run: the configured module roots, the current
glob scan results, and the execution oracle keyed by the resolved path
string. -/
structure Env where
  valid_dirs : List (List String)
  candidates : List Candidate
  oracle : String → LoadOutcome

/-- One iteration of the startup loading loop (`__init__`,
lines 83-114).  An execution failure is caught: it appends
`(mod_path, "import_error: <detail>")` to `rejected_modules` and the
batch continues.  On success the module is stored in `loaded_mods` and
its filtered names are registered. -/
def startupLoadStep (oracle : String → LoadOutcome) (st : HandlerState)
    (c : Candidate) : HandlerState :=
  match oracle c.resolvedStr with
  | LoadOutcome.skip => st
  | LoadOutcome.err e =>
      { st with rejected_modules :=
          st.rejected_modules ++ [(c.resolvedStr, "import_error: " ++ e)] }
  | LoadOutcome.ok ns =>
      let st1 := { st with loaded_mods := dictSet st.loaded_mods c.stem ns }
      registerModule st1 c.stem ns (cleanStartup ns)

/-- `ProxyHandler.__init__` (lines 26-114): validate the scanned
candidates, then load and register each accepted module. -/
def initHandler (env : Env) : HandlerState :=
  let vr := validateCandidates env.valid_dirs env.candidates
  let st0 : HandlerState :=
    { registry := [], name_tracker := [], loaded_mods := [], rejected_modules := vr.2 }
  vr.1.foldl (startupLoadStep env.oracle) st0

/-- One iteration of the loading loop of `reload_all_modules`
(lines 216-250).  Unlike startup, this loop has no try/except: an
execution failure propagates, aborting the rest of the batch; the
`Option String` component records the propagated error detail.  The
`importlib.reload` versus fresh-import distinction collapses into the
oracle, which yields the final outcome of that code path. -/
def reloadAllLoadStep (oracle : String → LoadOutcome)
    (acc : HandlerState × Option String) (c : Candidate) :
    HandlerState × Option String :=
  match acc with
  | (st, some e) => (st, some e)
  | (st, none) =>
      match oracle c.resolvedStr with
      | LoadOutcome.skip => (st, none)
      | LoadOutcome.err e => (st, some e)
      | LoadOutcome.ok ns =>
          let st1 := { st with loaded_mods := dictSet st.loaded_mods c.stem ns }
          (registerModule st1 c.stem ns (cleanReloadAll ns), none)

/-- `ProxyHandler.reload_all_modules` (lines 174-255): clear the
registry, the name tracker, the loaded modules and the rejection log,
re-discover and validate, then load.  The second component is the summary
string on normal return, or the propagated exception detail. -/
def reload_all_modules (env : Env) (_st : HandlerState) :
    HandlerState × Except String String :=
  -- clear all state (lines 176-180); the cleared fields are rebuilt below
  let vr := validateCandidates env.valid_dirs env.candidates
  let st0 : HandlerState :=
    { registry := [], name_tracker := [], loaded_mods := [], rejected_modules := vr.2 }
  let res := vr.1.foldl (reloadAllLoadStep env.oracle) (st0, none)
  (res.1,
    match res.2 with
    | some e => Except.error e
    | none =>
        Except.ok ("Loaded " ++ toString res.1.registry.length ++ " tools from "
          ++ toString res.1.loaded_mods.length ++ " modules"))

/-! ## Single-module reload and dispatch -/

/-- Result dictionary of `reload_module`. -/
inductive ReloadResult where
  | notLoaded (error : String)
  | failure (error : String) (traceback : String) (note : String)
  | success (reloaded : String) (tools_added tools_removed : List String)
      (suggestion : Option String)
deriving DecidableEq, Repr

/-- `ProxyHandler.reload_module` (lines 257-342).  `exec_result` models
the combined outcome of locating the module file, building the spec and
re-executing the module object in place: `Except.error` carries the
detail of any exception raised in the try block, `Except.ok` the
refreshed namespace.  Re-execution is treated as atomic, matching the
spec-level contract that a failed reload leaves the module untouched. -/
def reload_module (st : HandlerState) (module_name : String)
    (exec_result : Except String PyModule) : HandlerState × ReloadResult :=
  match dictGet st.loaded_mods module_name with
  | none =>
      (st, ReloadResult.notLoaded ("Module " ++ module_name ++ " not currently loaded"))
  | some _ =>
      -- track tools before reload
      let old_tool_names :=
        (st.registry.filter (fun p => p.2.source_module == module_name)).map Prod.fst
      match exec_result with
      | Except.error e =>
          -- reload failed: keep old version, return error with traceback
          (st, ReloadResult.failure ("Failed to reload " ++ module_name) e
            "Old version of module is still loaded")
      | Except.ok reloaded =>
          let stA := { st with loaded_mods := dictSet st.loaded_mods module_name reloaded }
          -- remove old tools from registry
          let stB := { stA with registry := old_tool_names.foldl dictPop stA.registry }
          -- register new tools from the reloaded module
          let stC := registerModule stB module_name reloaded (cleanReloadOne reloaded)
          -- track tools after reload
          let new_tool_names :=
            (stC.registry.filter (fun p => p.2.source_module == module_name)).map Prod.fst
          let tools_added := new_tool_names.filter (fun k => !old_tool_names.contains k)
          let tools_removed := old_tool_names.filter (fun k => !new_tool_names.contains k)
          let suggestion :=
            if tools_added ≠ [] ∨ tools_removed ≠ [] then
              some "Consider reload_all() to rebuild collision detection"
            else none
          (stC, ReloadResult.success module_name tools_added tools_removed suggestion)

/-- Exceptions visible at the dispatch boundary.  `keyError` models the
`KeyError` raised by `use_proxy_tool`, keeping the tool id and the
current key list structurally; `other` models any exception raised by
the proxied callable itself. -/
inductive PyExn where
  | keyError (toolId : String) (availableKeys : List String)
  | other (detail : String)
deriving DecidableEq, Repr

/-- `ProxyHandler.use_proxy_tool` (lines 162-168).  `F` gives the
behaviour of each callable on the (keyword-expanded) argument mapping;
an `Except.error` models an exception raised by the callable, which the
dispatcher propagates unmodified.  The state component of the result is
the registry state after the call. -/
def use_proxy_tool (F : PyObject → List (String × Nat) → Except PyExn Nat)
    (st : HandlerState) (tool_id : String) (kwargs : List (String × Nat)) :
    HandlerState × Except PyExn Nat :=
  match dictGet st.registry tool_id with
  | none => (st, Except.error (PyExn.keyError tool_id (dictKeys st.registry)))
  | some info => (st, F info.function kwargs)

/-! ## String suffix lemmas -/

theorem string_eq_iff_data (a b : String) : a = b ↔ a.data = b.data :=
  ⟨fun h => h ▸ rfl, fun h => by cases a; cases b; exact congrArg String.mk h⟩

/-- A suffixed tool name differs from the bare name. -/
theorem suffix_ne_base (n m : String) : n ++ "_" ++ m ≠ n := by
  intro h
  have hlen := congrArg String.length h
  have h1 : String.length "_" = 1 := rfl
  simp only [String.length_append, h1] at hlen
  omega

/-- Suffixing with two different module names gives different keys. -/
theorem suffix_inj_module {n m1 m2 : String} (h : n ++ "_" ++ m1 = n ++ "_" ++ m2) :
    m1 = m2 := by
  rw [string_eq_iff_data] at h
  simp only [String.data_append] at h
  exact (string_eq_iff_data m1 m2).mpr (List.append_cancel_left h)

/-- Suffixing two different names with the same module gives different keys. -/
theorem suffix_inj_name {n1 n2 M : String} (h : n1 ++ "_" ++ M = n2 ++ "_" ++ M) :
    n1 = n2 := by
  rw [string_eq_iff_data] at h
  simp only [String.data_append] at h
  have h1 : n1.data ++ "_".data = n2.data ++ "_".data := List.append_cancel_right h
  exact (string_eq_iff_data n1 n2).mpr (List.append_cancel_right h1)

/-! ## Structural lemmas about registration -/

/-- The registry row built by the collision branch of `_register_tool`. -/
def mkCollisionEntry (f : PyObject) (M n : String) : ToolEntry :=
  { function := f, docstring := f.doc, source_module := M,
    original_name := n, had_collision := true }

/-- First sighting of a name: the bare key is created and tracking starts. -/
theorem register_tool_first {st : HandlerState} {n : String} (M : String) (f : PyObject)
    (h : dictGet st.name_tracker n = none) :
    register_tool st n M f =
      { st with
        registry := dictSet st.registry n
          { function := f, docstring := f.doc, source_module := M,
            original_name := n, had_collision := false },
        name_tracker := dictSet st.name_tracker n [(M, n)] } := by
  unfold register_tool
  rw [h]

/-- Collision branch when the first history entry no longer carries the
bare name: the retroactive rename is skipped and the new callable is
registered under the suffixed key. -/
theorem register_tool_no_rename {st : HandlerState} {n fm fn : String}
    {rest : List (String × String)} (M : String) (f : PyObject)
    (htr : dictGet st.name_tracker n = some ((fm, fn) :: rest))
    (hfn : fn ≠ n) :
    register_tool st n M f =
      { st with
        registry := dictSet st.registry (n ++ "_" ++ M) (mkCollisionEntry f M n),
        name_tracker := dictSet st.name_tracker n
          (((fm, fn) :: rest) ++ [(M, n ++ "_" ++ M)]) } := by
  unfold register_tool
  rw [htr]
  simp only [List.headD_cons, if_neg hfn, htr, Option.getD_some, mkCollisionEntry]

/-- Registration never touches `loaded_mods` or `rejected_modules`. -/
theorem register_tool_frame (st : HandlerState) (n M : String) (f : PyObject) :
    (register_tool st n M f).loaded_mods = st.loaded_mods ∧
    (register_tool st n M f).rejected_modules = st.rejected_modules := by
  unfold register_tool
  cases dictGet st.name_tracker n with
  | none => exact ⟨rfl, rfl⟩
  | some history =>
      dsimp only
      split
      · cases dictGet st.registry n with
        | none => exact ⟨rfl, rfl⟩
        | some oldEntry => exact ⟨rfl, rfl⟩
      · exact ⟨rfl, rfl⟩

/-- The per-module registration loop never touches `loaded_mods` or
`rejected_modules`. -/
theorem registerModule_frame (names : List String) (st : HandlerState) (M : String)
    (ns : PyModule) :
    (registerModule st M ns names).loaded_mods = st.loaded_mods ∧
    (registerModule st M ns names).rejected_modules = st.rejected_modules := by
  induction names generalizing st with
  | nil => exact ⟨rfl, rfl⟩
  | cons n rest ih =>
      have h1 := register_tool_frame st n M (getattrD ns n)
      have h2 := ih (register_tool st n M (getattrD ns n))
      exact ⟨h2.1.trans h1.1, h2.2.trans h1.2⟩

/-- Every registry row after a `_register_tool` call either belongs to the
module just registered (with the registered original name) or inherits
`source_module` and `original_name` from a pre-existing row: the
retroactive rename changes the key and the collision flag only. -/
theorem register_tool_mem_registry {st : HandlerState} {n M : String} {f : PyObject}
    {p : String × ToolEntry} (hp : p ∈ (register_tool st n M f).registry) :
    (p.2.source_module = M ∧ p.2.original_name = n) ∨
      ∃ q ∈ st.registry, q.2.source_module = p.2.source_module ∧
        q.2.original_name = p.2.original_name := by
  unfold register_tool at hp
  cases htr : dictGet st.name_tracker n with
  | none =>
      rw [htr] at hp
      simp only at hp
      rcases mem_dictSet hp with h | h
      · subst h; exact Or.inl ⟨rfl, rfl⟩
      · exact Or.inr ⟨p, h, rfl, rfl⟩
  | some history =>
      rw [htr] at hp
      simp only at hp
      split at hp
      · cases hreg : dictGet st.registry n with
        | none =>
            rw [hreg] at hp
            simp only at hp
            rcases mem_dictSet hp with h | h
            · subst h; exact Or.inl ⟨rfl, rfl⟩
            · exact Or.inr ⟨p, h, rfl, rfl⟩
        | some oldEntry =>
            rw [hreg] at hp
            simp only at hp
            rcases mem_dictSet hp with h | h
            · subst h; exact Or.inl ⟨rfl, rfl⟩
            · rcases mem_dictSet h with h2 | h2
              · subst h2
                exact Or.inr ⟨(n, oldEntry), dictGet_mem hreg, rfl, rfl⟩
              · exact Or.inr ⟨p, mem_dictPop h2, rfl, rfl⟩
      · rcases mem_dictSet hp with h | h
        · subst h; exact Or.inl ⟨rfl, rfl⟩
        · exact Or.inr ⟨p, h, rfl, rfl⟩

/-- Fold version of `register_tool_mem_registry`. -/
theorem registerModule_mem_registry {names : List String} {st : HandlerState}
    {M : String} {ns : PyModule} {p : String × ToolEntry}
    (hp : p ∈ (registerModule st M ns names).registry) :
    (p.2.source_module = M ∧ p.2.original_name ∈ names) ∨
      ∃ q ∈ st.registry, q.2.source_module = p.2.source_module ∧
        q.2.original_name = p.2.original_name := by
  induction names generalizing st with
  | nil => exact Or.inr ⟨p, hp, rfl, rfl⟩
  | cons n rest ih =>
      rcases @ih (register_tool st n M (getattrD ns n)) hp with h | ⟨q, hq, hqs, hqn⟩
      · exact Or.inl ⟨h.1, List.mem_cons_of_mem _ h.2⟩
      · rcases register_tool_mem_registry hq with h2 | ⟨r, hr, hrs, hrn⟩
        · exact Or.inl ⟨hqs ▸ h2.1, by rw [← hqn, h2.2]; exact List.mem_cons_self _ _⟩
        · exact Or.inr ⟨r, hr, hrs.trans hqs, hrn.trans hqn⟩

/-! ## Deletion as filtering -/

/-- With unique keys, `del d[k]` is filtering the key out. -/
theorem dictPop_eq_filter {α : Type} {d : List (String × α)}
    (hnd : (d.map Prod.fst).Nodup) (k : String) :
    dictPop d k = d.filter (fun p => p.1 != k) := by
  induction d with
  | nil => rfl
  | cons q rest ih =>
      obtain ⟨k0, v0⟩ := q
      simp only [List.map_cons, List.nodup_cons] at hnd
      by_cases h0 : k0 = k
      · subst h0
        have hall : ∀ p ∈ rest, (p.1 != k0) = true := by
          intro p hp
          simp only [bne_iff_ne, ne_eq]
          intro hk
          exact hnd.1 (hk ▸ List.mem_map_of_mem Prod.fst hp)
        simp only [dictPop, if_pos rfl, List.filter_cons]
        simp only [bne_self_eq_false, Bool.false_eq_true, if_neg]
        rw [List.filter_eq_self.mpr hall]
        simp
      · simp only [dictPop, if_neg h0, List.filter_cons]
        have : ((k0, v0).1 != k) = true := by simpa [bne_iff_ne] using h0
        rw [ih hnd.2]
        simp [this]

/-- Keys of a filtered dict stay unique. -/
theorem nodup_keys_filter {α : Type} {d : List (String × α)}
    (hnd : (d.map Prod.fst).Nodup) (q : String × α → Bool) :
    ((d.filter q).map Prod.fst).Nodup :=
  ((List.filter_sublist d).map Prod.fst).nodup hnd

/-- The deletion loop of `reload_module` is filtering out the listed keys. -/
theorem foldl_dictPop_eq_filter {α : Type} {d : List (String × α)}
    (hnd : (d.map Prod.fst).Nodup) (ks : List String) :
    List.foldl dictPop d ks = d.filter (fun p => !ks.contains p.1) := by
  induction ks generalizing d with
  | nil => simp
  | cons k ks ih =>
      rw [List.foldl_cons, dictPop_eq_filter hnd k, ih (nodup_keys_filter hnd _),
        List.filter_filter]
      apply List.filter_congr
      intro p _
      simp only [List.contains_cons, Bool.not_or]
      rw [Bool.and_comm]
      simp [bne]

/-! ## Suffix-stable batch registration

When every name about to be re-registered already has a non-bare first
history entry and its suffixed key is absent, the registration loop
appends exactly the suffixed rows and renames nothing. -/

theorem registerModule_suffix_append (M : String) (ns : PyModule) :
    ∀ (names : List String) (st : HandlerState),
    names.Nodup →
    (∀ n ∈ names, ∃ fm fn rest,
      dictGet st.name_tracker n = some ((fm, fn) :: rest) ∧ fn ≠ n) →
    (∀ n ∈ names, dictGet st.registry (n ++ "_" ++ M) = none) →
    (registerModule st M ns names).registry =
      st.registry ++ names.map (fun n => (n ++ "_" ++ M, mkCollisionEntry (getattrD ns n) M n))
  | [], st, _, _, _ => by simp [registerModule]
  | n :: rest, st, hnd, htr, hfresh => by
      obtain ⟨fm, fn, hr, hget, hfn⟩ := htr n (List.mem_cons_self _ _)
      have hstep := register_tool_no_rename M (getattrD ns n) hget hfn
      have hnotmem : n ∉ rest := (List.nodup_cons.mp hnd).1
      have hreg' : (register_tool st n M (getattrD ns n)).registry =
          st.registry ++ [(n ++ "_" ++ M, mkCollisionEntry (getattrD ns n) M n)] := by
        rw [hstep]
        exact dictSet_fresh_eq_append _ (hfresh n (List.mem_cons_self _ _))
      have htr' : ∀ m ∈ rest, ∃ fm2 fn2 rest2,
          dictGet (register_tool st n M (getattrD ns n)).name_tracker m =
            some ((fm2, fn2) :: rest2) ∧ fn2 ≠ m := by
        intro m hm
        obtain ⟨fm2, fn2, rest2, hg, hne⟩ := htr m (List.mem_cons_of_mem _ hm)
        refine ⟨fm2, fn2, rest2, ?_, hne⟩
        rw [hstep]
        simp only
        have hmn : m ≠ n := by
          intro hc
          exact hnotmem (hc ▸ hm)
        rw [dictGet_dictSet_ne _ _ _ _ hmn]
        exact hg
      have hfresh' : ∀ m ∈ rest,
          dictGet (register_tool st n M (getattrD ns n)).registry (m ++ "_" ++ M) = none := by
        intro m hm
        rw [hreg']
        rw [dictGet_append_right (hfresh m (List.mem_cons_of_mem _ hm))]
        apply dictGet_singleton_ne
        intro hc
        have hmn : m = n := suffix_inj_name hc
        exact hnotmem (hmn ▸ hm)
      have hrec := registerModule_suffix_append M ns rest
        (register_tool st n M (getattrD ns n)) (List.nodup_cons.mp hnd).2 htr' hfresh'
      calc (registerModule st M ns (n :: rest)).registry
          = (registerModule (register_tool st n M (getattrD ns n)) M ns rest).registry := rfl
        _ = _ := by rw [hrec, hreg']; simp

/-- A duplicate-free list whose members all equal `a` and that contains
`a` is the singleton `[a]`. -/
theorem nodup_all_eq {l : List String} {a : String} (hnd : l.Nodup)
    (hall : ∀ x ∈ l, x = a) (hmem : a ∈ l) : l = [a] := by
  cases l with
  | nil => simp at hmem
  | cons b t =>
      have hb : b = a := hall b (List.mem_cons_self _ _)
      subst hb
      have ht : t = [] := by
        cases t with
        | nil => rfl
        | cons c u =>
            have hc : c = b := hall c (by simp)
            subst hc
            simp at hnd
      rw [ht]

/-! ## Fold lemmas for the load and validation loops -/

/-- Helper: `List.contains` agrees with membership for strings. -/
theorem contains_iff_mem {l : List String} {x : String} :
    l.contains x = true ↔ x ∈ l := by
  simp [List.contains, List.elem_iff]

/-- Origin of registry rows built by the startup loop: each row comes
from a candidate whose execution succeeded, with its original name drawn
from the startup filter of that namespace (or it predates the fold). -/
theorem startup_fold_registry_origin (oracle : String → LoadOutcome) :
    ∀ (cs : List Candidate) (st : HandlerState) (p : String × ToolEntry),
    p ∈ (cs.foldl (startupLoadStep oracle) st).registry →
    (∃ q ∈ st.registry, q.2.source_module = p.2.source_module ∧
      q.2.original_name = p.2.original_name) ∨
    ∃ c ∈ cs, ∃ ns, oracle c.resolvedStr = LoadOutcome.ok ns ∧
      p.2.source_module = c.stem ∧ p.2.original_name ∈ cleanStartup ns
  | [], _, p, hp => Or.inl ⟨p, hp, rfl, rfl⟩
  | c :: rest, st, p, hp => by
      rcases startup_fold_registry_origin oracle rest (startupLoadStep oracle st c) p hp with
        ⟨q, hq, hqs, hqn⟩ | ⟨c2, hc2, ns, hns, hs, hn⟩
      · cases hor : oracle c.resolvedStr with
        | skip =>
            simp only [startupLoadStep, hor] at hq
            exact Or.inl ⟨q, hq, hqs, hqn⟩
        | err e =>
            simp only [startupLoadStep, hor] at hq
            exact Or.inl ⟨q, hq, hqs, hqn⟩
        | ok ns =>
            simp only [startupLoadStep, hor] at hq
            rcases registerModule_mem_registry hq with h2 | ⟨r, hr, hrs, hrn⟩
            · refine Or.inr ⟨c, List.mem_cons_self _ _, ns, hor, ?_, ?_⟩
              · rw [← hqs]; exact h2.1
              · rw [← hqn]; exact h2.2
            · exact Or.inl ⟨r, hr, hrs.trans hqs, hrn.trans hqn⟩
      · exact Or.inr ⟨c2, List.mem_cons_of_mem _ hc2, ns, hns, hs, hn⟩

/-- Origin of loaded modules after the startup loop. -/
theorem startup_fold_loaded_origin (oracle : String → LoadOutcome) :
    ∀ (cs : List Candidate) (st : HandlerState) (name : String) (ns : PyModule),
    dictGet (cs.foldl (startupLoadStep oracle) st).loaded_mods name = some ns →
    dictGet st.loaded_mods name = some ns ∨ ∃ c ∈ cs, c.stem = name
  | [], _, _, _, h => Or.inl h
  | c :: rest, st, name, ns, h => by
      rcases startup_fold_loaded_origin oracle rest (startupLoadStep oracle st c) name ns h with
        h1 | ⟨c2, hc2, hs⟩
      · cases hor : oracle c.resolvedStr with
        | skip =>
            rw [startupLoadStep, hor] at h1
            exact Or.inl h1
        | err e =>
            rw [startupLoadStep, hor] at h1
            exact Or.inl h1
        | ok ns0 =>
            rw [startupLoadStep, hor] at h1
            rw [(registerModule_frame _ _ _ _).1] at h1
            by_cases hname : name = c.stem
            · exact Or.inr ⟨c, List.mem_cons_self _ _, hname.symm⟩
            · rw [dictGet_dictSet_ne _ _ _ _ hname] at h1
              exact Or.inl h1
      · exact Or.inr ⟨c2, List.mem_cons_of_mem _ hc2, hs⟩

/-- An aborted reload-all loop stays aborted with an unchanged state. -/
theorem reloadall_fold_absorb (oracle : String → LoadOutcome) :
    ∀ (cs : List Candidate) (st : HandlerState) (e : String),
    cs.foldl (reloadAllLoadStep oracle) (st, some e) = (st, some e)
  | [], _, _ => rfl
  | _ :: rest, st, e => reloadall_fold_absorb oracle rest st e

/-- The reload-all loading loop never appends to the rejection log. -/
theorem reloadall_fold_rejections (oracle : String → LoadOutcome) :
    ∀ (cs : List Candidate) (acc : HandlerState × Option String),
    ((cs.foldl (reloadAllLoadStep oracle) acc).1).rejected_modules =
      acc.1.rejected_modules
  | [], _ => rfl
  | c :: rest, (st, some e) => by
      rw [List.foldl_cons]
      exact reloadall_fold_rejections oracle rest (st, some e)
  | c :: rest, (st, none) => by
      rw [List.foldl_cons]
      cases hor : oracle c.resolvedStr with
      | skip =>
          have := reloadall_fold_rejections oracle rest (st, none)
          simpa [reloadAllLoadStep, hor] using this
      | err e =>
          have := reloadall_fold_rejections oracle rest (st, some e)
          simpa [reloadAllLoadStep, hor] using this
      | ok ns =>
          have h1 := reloadall_fold_rejections oracle rest
            (registerModule { st with loaded_mods := dictSet st.loaded_mods c.stem ns }
              c.stem ns (cleanReloadAll ns), none)
          rw [reloadAllLoadStep, hor] at *
          rw [h1]
          exact (registerModule_frame _ _ _ _).2

/-- Origin of registry rows built by the reload-all loop. -/
theorem reloadall_fold_registry_origin (oracle : String → LoadOutcome) :
    ∀ (cs : List Candidate) (acc : HandlerState × Option String) (p : String × ToolEntry),
    p ∈ ((cs.foldl (reloadAllLoadStep oracle) acc).1).registry →
    (∃ q ∈ acc.1.registry, q.2.source_module = p.2.source_module ∧
      q.2.original_name = p.2.original_name) ∨
    ∃ c ∈ cs, ∃ ns, oracle c.resolvedStr = LoadOutcome.ok ns ∧
      p.2.source_module = c.stem ∧ p.2.original_name ∈ cleanReloadAll ns
  | [], _, p, hp => Or.inl ⟨p, hp, rfl, rfl⟩
  | c :: rest, (st, some e), p, hp => by
      rw [List.foldl_cons] at hp
      rcases reloadall_fold_registry_origin oracle rest (st, some e) p hp with h | ⟨c2, hc2, h⟩
      · exact Or.inl h
      · exact Or.inr ⟨c2, List.mem_cons_of_mem _ hc2, h⟩
  | c :: rest, (st, none), p, hp => by
      rw [List.foldl_cons] at hp
      cases hor : oracle c.resolvedStr with
      | skip =>
          rw [reloadAllLoadStep, hor] at hp
          rcases reloadall_fold_registry_origin oracle rest (st, none) p hp with h | ⟨c2, hc2, h⟩
          · exact Or.inl h
          · exact Or.inr ⟨c2, List.mem_cons_of_mem _ hc2, h⟩
      | err e =>
          rw [reloadAllLoadStep, hor] at hp
          rcases reloadall_fold_registry_origin oracle rest (st, some e) p hp with h | ⟨c2, hc2, h⟩
          · exact Or.inl h
          · exact Or.inr ⟨c2, List.mem_cons_of_mem _ hc2, h⟩
      | ok ns =>
          rw [reloadAllLoadStep, hor] at hp
          rcases reloadall_fold_registry_origin oracle rest _ p hp with ⟨q, hq, hqs, hqn⟩ |
            ⟨c2, hc2, h⟩
          · rcases registerModule_mem_registry hq with h2 | ⟨r, hr, hrs, hrn⟩
            · refine Or.inr ⟨c, List.mem_cons_self _ _, ns, hor, ?_, ?_⟩
              · rw [← hqs, h2.1]
              · rw [← hqn]; exact h2.2
            · exact Or.inl ⟨r, hr, hrs.trans hqs, hrn.trans hqn⟩
          · exact Or.inr ⟨c2, List.mem_cons_of_mem _ hc2, h⟩

/-- Accepted candidates of the validation fold either predate the fold or
come from the scanned list with a root-contained resolved path. -/
theorem validate_fold_accepted (dirs : List (List String)) :
    ∀ (cs : List Candidate) (acc : List Candidate × List (String × String)) (c : Candidate),
    c ∈ (cs.foldl (validateStep dirs) acc).1 →
    c ∈ acc.1 ∨ (c ∈ cs ∧ dirs.any (fun d => List.isPrefixOf d c.resolved) = true)
  | [], _, c, h => Or.inl h
  | c0 :: rest, acc, c, h => by
      rw [List.foldl_cons] at h
      rcases validate_fold_accepted dirs rest (validateStep dirs acc c0) c h with h1 | ⟨h1, h2⟩
      · unfold validateStep at h1
        by_cases hv : dirs.any (fun d => List.isPrefixOf d c0.resolved) = true
        · rw [if_pos hv] at h1
          by_cases ht : c0.stem = "toolset"
          · rw [if_pos ht] at h1
            exact Or.inl h1
          · rw [if_neg ht] at h1
            cases hr : c0.read with
            | parseOk =>
                rw [hr] at h1
                rcases List.mem_append.mp h1 with h2 | h2
                · exact Or.inl h2
                · rcases List.mem_singleton.mp h2 with rfl
                  exact Or.inr ⟨List.mem_cons_self _ _, hv⟩
            | parseFailed => rw [hr] at h1; exact Or.inl h1
            | readFailed d => rw [hr] at h1; exact Or.inl h1
        · rw [if_neg hv] at h1
          exact Or.inl h1
      · exact Or.inr ⟨List.mem_cons_of_mem _ h1, h2⟩

/-- The rejection log of the validation fold only grows. -/
theorem validate_fold_rejections_mono (dirs : List (List String)) :
    ∀ (cs : List Candidate) (acc : List Candidate × List (String × String))
      (x : String × String), x ∈ acc.2 → x ∈ (cs.foldl (validateStep dirs) acc).2
  | [], _, _, h => h
  | c0 :: rest, acc, x, h => by
      rw [List.foldl_cons]
      apply validate_fold_rejections_mono dirs rest
      unfold validateStep
      by_cases hv : dirs.any (fun d => List.isPrefixOf d c0.resolved) = true
      · rw [if_pos hv]
        by_cases ht : c0.stem = "toolset"
        · rw [if_pos ht]; exact h
        · rw [if_neg ht]
          cases c0.read with
          | parseOk => exact h
          | parseFailed => exact List.mem_append_left _ h
          | readFailed d => exact List.mem_append_left _ h
      · rw [if_neg hv]
        exact List.mem_append_left _ h

/-- A scanned candidate outside every root lands in the rejection log. -/
theorem validate_fold_traversal_rejected (dirs : List (List String)) :
    ∀ (cs : List Candidate) (acc : List Candidate × List (String × String)) (c : Candidate),
    c ∈ cs → dirs.any (fun d => List.isPrefixOf d c.resolved) = false →
    (c.rawPath, "path_traversal_attempt") ∈ (cs.foldl (validateStep dirs) acc).2
  | [], _, _, h, _ => by simp at h
  | c0 :: rest, acc, c, h, hv => by
      rw [List.foldl_cons]
      rcases List.mem_cons.mp h with rfl | h1
      · apply validate_fold_rejections_mono dirs rest
        unfold validateStep
        rw [if_neg (by rw [hv]; exact Bool.false_ne_true)]
        exact List.mem_append_right _ (List.mem_singleton.mpr rfl)
      · exact validate_fold_traversal_rejected dirs rest _ c h1 hv

/-- Success shape of `reload_module`: with the module loaded and the
re-execution succeeding, the result is the deletion of the old rows
followed by re-registration, together with the added/removed report. -/
theorem reload_module_ok {st : HandlerState} {M : String} {ns_old : PyModule}
    (ns_new : PyModule) (hload : dictGet st.loaded_mods M = some ns_old) :
    reload_module st M (Except.ok ns_new) =
      (let old_tool_names :=
        (st.registry.filter (fun p => p.2.source_module == M)).map Prod.fst
       let stB : HandlerState :=
        { st with
          loaded_mods := dictSet st.loaded_mods M ns_new,
          registry := List.foldl dictPop st.registry old_tool_names }
       let stC := registerModule stB M ns_new (cleanReloadOne ns_new)
       let new_tool_names :=
        (stC.registry.filter (fun p => p.2.source_module == M)).map Prod.fst
       let tools_added := new_tool_names.filter (fun k => !old_tool_names.contains k)
       let tools_removed := old_tool_names.filter (fun k => !new_tool_names.contains k)
       (stC, ReloadResult.success M tools_added tools_removed
         (if tools_added ≠ [] ∨ tools_removed ≠ [] then
           some "Consider reload_all() to rebuild collision detection"
          else none))) := by
  unfold reload_module
  rw [hload]

/-! ## Concrete demonstration material -/

def demoObj1 : PyObject := ⟨1, true, none⟩
def demoObj2 : PyObject := ⟨2, true, none⟩
def demoObj11 : PyObject := ⟨11, true, none⟩

/-- Namespace of the demo module `alpha`, defining tools `foo` and `bar`. -/
def alphaNs : PyModule := [("foo", demoObj1), ("bar", demoObj2)]

/-- Namespace of `alpha` after an edit that drops `bar`. -/
def alphaNs2 : PyModule := [("foo", demoObj11)]

def alphaCandidate : Candidate :=
  ⟨"root/modules/alpha.py", ["root", "modules", "alpha.py"], "root/modules/alpha.py",
    "alpha", ReadOutcome.parseOk⟩

def alphaEnv : Env :=
  { valid_dirs := [["root", "modules"]],
    candidates := [alphaCandidate],
    oracle := fun p =>
      if p = "root/modules/alpha.py" then LoadOutcome.ok alphaNs else LoadOutcome.skip }

/-- Handler state after starting up on the `alpha` module alone. -/
def alphaState : HandlerState := initHandler alphaEnv

/-! ## C1 -/

/-- C1: for a currently loaded module, a `reload_module` whose
re-execution raises leaves the entire handler state — registry keys,
bound callables, tracker, loaded modules — exactly as it was, and
returns the failure dictionary carrying the error detail (traceback) and
the note that the old version is still loaded. -/
theorem C1_failed_reload_preserves_state (st : HandlerState) (M e : String)
    (ns : PyModule) (h : dictGet st.loaded_mods M = some ns) :
    reload_module st M (Except.error e) =
      (st, ReloadResult.failure ("Failed to reload " ++ M) e
        "Old version of module is still loaded") := by
  unfold reload_module
  rw [h]

theorem C1_witness :
    dictGet alphaState.loaded_mods "alpha" = some alphaNs ∧
    reload_module alphaState "alpha" (Except.error "boom") =
      (alphaState, ReloadResult.failure ("Failed to reload " ++ "alpha") "boom"
        "Old version of module is still loaded") :=
  ⟨by decide, C1_failed_reload_preserves_state alphaState "alpha" "boom" alphaNs (by decide)⟩

/-! ## C7 -/

/-- C7: dispatch raises the not-found `KeyError`, whose payload carries
the current key list, exactly on unregistered tool ids; on a registered
id it calls the bound callable on the keyword mapping and returns its
outcome — normal or raised — unmodified; the registry state is unchanged
in every case. -/
theorem C7_dispatch (F : PyObject → List (String × Nat) → Except PyExn Nat)
    (st : HandlerState) (tool_id : String) (kwargs : List (String × Nat)) :
    (dictGet st.registry tool_id = none →
      use_proxy_tool F st tool_id kwargs =
        (st, Except.error (PyExn.keyError tool_id (dictKeys st.registry)))) ∧
    (∀ info, dictGet st.registry tool_id = some info →
      use_proxy_tool F st tool_id kwargs = (st, F info.function kwargs)) ∧
    (use_proxy_tool F st tool_id kwargs).1 = st := by
  refine ⟨fun h => by unfold use_proxy_tool; rw [h],
    fun info h => by unfold use_proxy_tool; rw [h], ?_⟩
  unfold use_proxy_tool
  cases dictGet st.registry tool_id <;> rfl

/-- Behaviour of the demo callables: return the object identity. -/
def demoF : PyObject → List (String × Nat) → Except PyExn Nat :=
  fun o _ => Except.ok o.fnId

theorem C7_witness :
    use_proxy_tool demoF alphaState "missing" [] =
      (alphaState, Except.error (PyExn.keyError "missing" (dictKeys alphaState.registry))) ∧
    use_proxy_tool demoF alphaState "foo" [] = (alphaState, Except.ok 1) := by
  constructor
  · exact (C7_dispatch demoF alphaState "missing" []).1 (by decide)
  · have h := (C7_dispatch demoF alphaState "foo" []).2.1
      { function := demoObj1, docstring := none, source_module := "alpha",
        original_name := "foo", had_collision := false } (by decide)
    rw [h]
    rfl

/-! ## C10 -/

/-- C10: a top-level name containing a double underscore anywhere is
excluded by the extraction filter of all three load paths even when it is
an all-lowercase, non-underscore-prefixed callable — the filter tests for
the two-character substring, not for dunder shape — and consequently no
registry row built by startup carries such an original name. -/
theorem C10_double_underscore_filter :
    (∀ (ns : PyModule) (x : String), hasDoubleUnderscore x = true →
      x ∉ cleanStartup ns ∧ x ∉ cleanReloadAll ns ∧ x ∉ cleanReloadOne ns) ∧
    (∀ (env : Env) (p : String × ToolEntry), p ∈ (initHandler env).registry →
      hasDoubleUnderscore p.2.original_name = false) := by
  constructor
  · intro ns x hx
    refine ⟨fun hmem => ?_, fun hmem => ?_, fun hmem => ?_⟩ <;>
      simp [cleanStartup, cleanReloadAll, cleanReloadOne, List.mem_filter, hx] at hmem
  · intro env p hp
    simp only [initHandler] at hp
    rcases startup_fold_registry_origin env.oracle _ _ p hp with ⟨q, hq, _, _⟩ |
      ⟨c, _, ns, _, _, hn⟩
    · simp at hq
    · simp only [cleanStartup, List.mem_filter, Bool.and_eq_true, Bool.not_eq_true'] at hn
      tauto

theorem C10_witness :
    hasDoubleUnderscore "my__tool" = true ∧
    "my__tool" ∉ cleanStartup [("my__tool", demoObj1)] ∧
    "my__tool" ∉ cleanReloadOne [("my__tool", demoObj1)] :=
  ⟨by decide,
   (C10_double_underscore_filter.1 [("my__tool", demoObj1)] "my__tool" (by decide)).1,
   (C10_double_underscore_filter.1 [("my__tool", demoObj1)] "my__tool" (by decide)).2.2⟩

/-! ## C5 -/

/-- A module namespace binding a non-callable all-lowercase name. -/
def dataNs : PyModule := [("data", ⟨3, false, none⟩)]

/-- A module namespace binding a callable whose name starts with one
underscore. -/
def helperNs : PyModule := [("_helper", ⟨4, true, none⟩)]

/-- C5 counterexample: the startup filter registers the non-callable
top-level name `data`, so the registered set differs from the
spec-described set of eligible callables; moreover the partial-reload
filter differs from the startup filter by admitting the
underscore-prefixed name `_helper`. -/
theorem C5_counterexample :
    cleanStartup dataNs ≠ specEligibleNames dataNs ∧
    cleanReloadOne helperNs ≠ cleanStartup helperNs := by decide

/-- C5 amended: in every load path the extraction filter is purely
name-based — callability is never tested.  At startup and full reload the
registered names are exactly the top-level names that contain no double
underscore, are all-lowercase, and do not begin with an underscore; the
partial-reload filter omits the leading-underscore exclusion. -/
theorem C5_amended :
    (∀ (ns : PyModule) (x : String), x ∈ cleanStartup ns ↔
      (∃ o, (x, o) ∈ ns) ∧ hasDoubleUnderscore x = false ∧ pyIslower x = true ∧
        startsWithUnderscore x = false) ∧
    (∀ ns : PyModule, cleanReloadAll ns = cleanStartup ns) ∧
    (∀ (ns : PyModule) (x : String), x ∈ cleanReloadOne ns ↔
      (∃ o, (x, o) ∈ ns) ∧ hasDoubleUnderscore x = false ∧ pyIslower x = true) := by
  refine ⟨fun ns x => ?_, fun ns => rfl, fun ns x => ?_⟩
  · rw [cleanStartup, List.mem_filter, mem_pyDir]
    simp [Bool.and_eq_true, Bool.not_eq_true', and_assoc]
  · rw [cleanReloadOne, List.mem_filter, mem_pyDir]
    simp [Bool.and_eq_true, Bool.not_eq_true', and_assoc]

theorem C5_witness :
    "tool" ∈ cleanStartup [("tool", demoObj1)] ∧ "_helper" ∈ cleanReloadOne helperNs :=
  ⟨(C5_amended.1 [("tool", demoObj1)] "tool").mpr
     ⟨⟨demoObj1, by decide⟩, by decide, by decide, by decide⟩,
   (C5_amended.2.2 helperNs "_helper").mpr
     ⟨⟨⟨4, true, none⟩, by decide⟩, by decide, by decide⟩⟩

/-! ## C6 -/

/-- C6: a scanned candidate is accepted only if its resolved
(symlink-free) path is a descendant of a configured root; a candidate
resolving outside every root is rejected with reason
`path_traversal_attempt` and is never accepted; consequently every module
in `loaded_mods` after startup comes from an accepted candidate whose
resolved path lies under a configured root. -/
theorem C6_path_containment :
    (∀ (dirs : List (List String)) (cs : List Candidate) (c : Candidate),
      c ∈ (validateCandidates dirs cs).1 →
      dirs.any (fun d => List.isPrefixOf d c.resolved) = true) ∧
    (∀ (dirs : List (List String)) (cs : List Candidate) (c : Candidate),
      c ∈ cs → dirs.any (fun d => List.isPrefixOf d c.resolved) = false →
      (c.rawPath, "path_traversal_attempt") ∈ (validateCandidates dirs cs).2 ∧
      c ∉ (validateCandidates dirs cs).1) ∧
    (∀ (env : Env) (name : String) (ns : PyModule),
      dictGet (initHandler env).loaded_mods name = some ns →
      ∃ c ∈ (validateCandidates env.valid_dirs env.candidates).1,
        c.stem = name ∧ env.valid_dirs.any (fun d => List.isPrefixOf d c.resolved) = true) := by
  have hacc : ∀ (dirs : List (List String)) (cs : List Candidate) (c : Candidate),
      c ∈ (validateCandidates dirs cs).1 →
      dirs.any (fun d => List.isPrefixOf d c.resolved) = true := by
    intro dirs cs c h
    rcases validate_fold_accepted dirs cs ([], []) c h with h1 | ⟨_, h2⟩
    · simp at h1
    · exact h2
  refine ⟨hacc, fun dirs cs c hc hv =>
    ⟨validate_fold_traversal_rejected dirs cs ([], []) c hc hv, fun hmem => ?_⟩,
    fun env name ns h => ?_⟩
  · have h1 := hacc dirs cs c hmem
    rw [h1] at hv
    simp at hv
  · simp only [initHandler] at h
    rcases startup_fold_loaded_origin env.oracle _ _ name ns h with h1 | ⟨c, hc, hstem⟩
    · simp [dictGet] at h1
    · exact ⟨c, hc, hstem, hacc _ _ _ hc⟩

theorem C6_witness :
    ∃ c ∈ (validateCandidates alphaEnv.valid_dirs alphaEnv.candidates).1,
      c.stem = "alpha" ∧
      alphaEnv.valid_dirs.any (fun d => List.isPrefixOf d c.resolved) = true :=
  C6_path_containment.2.2 alphaEnv "alpha" alphaNs (by decide)

/-! ## C9 -/

/-- A glob hit inside a root that resolves (through a symlink) to a path
outside every root, whose resolved stem is the reserved name. -/
def toolsetEscapeCandidate : Candidate :=
  ⟨"root/modules/evil.py", ["tmp", "toolset.py"], "tmp/toolset.py", "toolset",
    ReadOutcome.parseOk⟩

/-- A `toolset.py` file sitting properly inside a configured root. -/
def toolsetCandidate : Candidate :=
  ⟨"root/modules/toolset.py", ["root", "modules", "toolset.py"],
    "root/modules/toolset.py", "toolset", ReadOutcome.parseOk⟩

/-- C9 counterexample: a discovered candidate whose derived identifier is
`toolset` but whose resolved path escapes every configured root is
recorded in the rejection log with reason `path_traversal_attempt` — the
path check runs before the reserved-name check — contradicting the claim
that every such candidate is neither loaded nor recorded. -/
theorem C9_counterexample :
    validateCandidates [["root", "modules"]] [toolsetEscapeCandidate] =
      ([], [("root/modules/evil.py", "path_traversal_attempt")]) := by decide

/-- C9 amended: a discovered candidate that passes the path-containment
check and whose derived identifier is `toolset` is silently dropped by
validation — neither accepted nor recorded — and hence contributes
nothing at startup and on full reload alike (both run the same
validation). -/
theorem C9_amended :
    (∀ (dirs : List (List String)) (ms1 : List Candidate) (c : Candidate)
      (ms2 : List Candidate),
      dirs.any (fun d => List.isPrefixOf d c.resolved) = true → c.stem = "toolset" →
      validateCandidates dirs (ms1 ++ c :: ms2) = validateCandidates dirs (ms1 ++ ms2)) ∧
    (∀ (dirs : List (List String)) (ms1 : List Candidate) (c : Candidate)
      (ms2 : List Candidate) (oracle : String → LoadOutcome),
      dirs.any (fun d => List.isPrefixOf d c.resolved) = true → c.stem = "toolset" →
      initHandler ⟨dirs, ms1 ++ c :: ms2, oracle⟩ = initHandler ⟨dirs, ms1 ++ ms2, oracle⟩) ∧
    (∀ (dirs : List (List String)) (ms1 : List Candidate) (c : Candidate)
      (ms2 : List Candidate) (oracle : String → LoadOutcome) (st : HandlerState),
      dirs.any (fun d => List.isPrefixOf d c.resolved) = true → c.stem = "toolset" →
      reload_all_modules ⟨dirs, ms1 ++ c :: ms2, oracle⟩ st =
        reload_all_modules ⟨dirs, ms1 ++ ms2, oracle⟩ st) := by
  have h1 : ∀ (dirs : List (List String)) (ms1 : List Candidate) (c : Candidate)
      (ms2 : List Candidate),
      dirs.any (fun d => List.isPrefixOf d c.resolved) = true → c.stem = "toolset" →
      validateCandidates dirs (ms1 ++ c :: ms2) = validateCandidates dirs (ms1 ++ ms2) := by
    intro dirs ms1 c ms2 hv ht
    unfold validateCandidates
    rw [List.foldl_append, List.foldl_append, List.foldl_cons]
    congr 1
    unfold validateStep
    rw [if_pos hv, if_pos ht]
  refine ⟨h1, fun dirs ms1 c ms2 oracle hv ht => ?_, fun dirs ms1 c ms2 oracle st hv ht => ?_⟩
  · simp only [initHandler]
    rw [h1 dirs ms1 c ms2 hv ht]
  · simp only [reload_all_modules]
    rw [h1 dirs ms1 c ms2 hv ht]

theorem C9_witness :
    validateCandidates [["root", "modules"]] ([] ++ toolsetCandidate :: [alphaCandidate]) =
      validateCandidates [["root", "modules"]] ([] ++ [alphaCandidate]) :=
  C9_amended.1 [["root", "modules"]] [] toolsetCandidate [alphaCandidate]
    (by decide) (by decide)

/-! ## C2 -/

/-- Collision branch when the first history entry still holds the bare
name and the bare key is still registered: the first row is renamed in
place to its suffixed key with the collision flag set, and the new
callable is registered under its own suffixed key. -/
theorem register_tool_rename {st : HandlerState} {n fm : String}
    {rest : List (String × String)} {oldEntry : ToolEntry} (M : String) (f : PyObject)
    (htr : dictGet st.name_tracker n = some ((fm, n) :: rest))
    (hreg : dictGet st.registry n = some oldEntry) :
    register_tool st n M f =
      { st with
        registry := dictSet
          (dictSet (dictPop st.registry n) (n ++ "_" ++ fm)
            { oldEntry with had_collision := true })
          (n ++ "_" ++ M) (mkCollisionEntry f M n),
        name_tracker := dictSet
          (dictSet st.name_tracker n ((fm, n ++ "_" ++ fm) :: rest)) n
          (((fm, n ++ "_" ++ fm) :: rest) ++ [(M, n ++ "_" ++ M)]) } := by
  unfold register_tool
  rw [htr]
  simp only [List.headD_cons, eq_self_iff_true, if_true, hreg, List.set_cons_zero,
    dictGet_dictSet_self, Option.getD_some, mkCollisionEntry]

/-- C2: starting from any state in which the original name is untracked
and its bare key is free, the first registering module holds
the bare key without the collision flag; the second registration renames
the first row in place to its suffixed key (flag set) and adds its own
suffixed key, after which the bare key is gone; the third registration
adds its suffixed key directly, leaving the first two rows untouched and
the bare key absent. -/
theorem C2_collision_sequence (st : HandlerState) (n m1 m2 m3 : String)
    (f1 f2 f3 : PyObject)
    (htr : dictGet st.name_tracker n = none)
    (hb : dictGet st.registry n = none)
    (h12 : m1 ≠ m2) (h13 : m1 ≠ m3) (h23 : m2 ≠ m3) :
    dictGet (register_tool st n m1 f1).registry n = some
      { function := f1, docstring := f1.doc, source_module := m1,
        original_name := n, had_collision := false } ∧
    dictGet (register_tool (register_tool st n m1 f1) n m2 f2).registry n = none ∧
    dictGet (register_tool (register_tool st n m1 f1) n m2 f2).registry
      (n ++ "_" ++ m1) = some
      { function := f1, docstring := f1.doc, source_module := m1,
        original_name := n, had_collision := true } ∧
    dictGet (register_tool (register_tool st n m1 f1) n m2 f2).registry
      (n ++ "_" ++ m2) = some (mkCollisionEntry f2 m2 n) ∧
    dictGet (register_tool (register_tool (register_tool st n m1 f1) n m2 f2) n m3 f3).registry
      (n ++ "_" ++ m3) = some (mkCollisionEntry f3 m3 n) ∧
    dictGet (register_tool (register_tool (register_tool st n m1 f1) n m2 f2) n m3 f3).registry
      (n ++ "_" ++ m1) =
      dictGet (register_tool (register_tool st n m1 f1) n m2 f2).registry (n ++ "_" ++ m1) ∧
    dictGet (register_tool (register_tool (register_tool st n m1 f1) n m2 f2) n m3 f3).registry
      (n ++ "_" ++ m2) =
      dictGet (register_tool (register_tool st n m1 f1) n m2 f2).registry (n ++ "_" ++ m2) ∧
    dictGet (register_tool (register_tool (register_tool st n m1 f1) n m2 f2) n m3 f3).registry
      n = none := by
  have hne1 : n ≠ n ++ "_" ++ m1 := fun h => suffix_ne_base n m1 h.symm
  have hne2 : n ≠ n ++ "_" ++ m2 := fun h => suffix_ne_base n m2 h.symm
  have hne3 : n ≠ n ++ "_" ++ m3 := fun h => suffix_ne_base n m3 h.symm
  have hne12 : n ++ "_" ++ m1 ≠ n ++ "_" ++ m2 := fun h => h12 (suffix_inj_module h)
  have hne13 : n ++ "_" ++ m1 ≠ n ++ "_" ++ m3 := fun h => h13 (suffix_inj_module h)
  have hne23 : n ++ "_" ++ m2 ≠ n ++ "_" ++ m3 := fun h => h23 (suffix_inj_module h)
  -- the first registration
  have e1 := register_tool_first m1 f1 htr
  set E1 : ToolEntry :=
    { function := f1, docstring := f1.doc, source_module := m1,
      original_name := n, had_collision := false } with hE1
  have g1 : dictGet (register_tool st n m1 f1).registry n = some E1 := by
    rw [e1]; exact dictGet_dictSet_self _ _ _
  have g1tr : dictGet (register_tool st n m1 f1).name_tracker n = some [(m1, n)] := by
    rw [e1]; exact dictGet_dictSet_self _ _ _
  -- the second registration renames the first row
  have e2 := register_tool_rename m2 f2 g1tr g1
  have hpop : dictPop (register_tool st n m1 f1).registry n = st.registry := by
    rw [e1]
    exact dictPop_dictSet_fresh _ hb
  have g2reg : (register_tool (register_tool st n m1 f1) n m2 f2).registry =
      dictSet (dictSet st.registry (n ++ "_" ++ m1) { E1 with had_collision := true })
        (n ++ "_" ++ m2) (mkCollisionEntry f2 m2 n) := by
    rw [e2]
    simp only [hpop]
  have g2bare : dictGet (register_tool (register_tool st n m1 f1) n m2 f2).registry n = none := by
    rw [g2reg, dictGet_dictSet_ne _ _ _ _ hne2, dictGet_dictSet_ne _ _ _ _ hne1]
    exact hb
  have g2k1 : dictGet (register_tool (register_tool st n m1 f1) n m2 f2).registry
      (n ++ "_" ++ m1) = some { E1 with had_collision := true } := by
    rw [g2reg, dictGet_dictSet_ne _ _ _ _ hne12]
    exact dictGet_dictSet_self _ _ _
  have g2k2 : dictGet (register_tool (register_tool st n m1 f1) n m2 f2).registry
      (n ++ "_" ++ m2) = some (mkCollisionEntry f2 m2 n) := by
    rw [g2reg]
    exact dictGet_dictSet_self _ _ _
  -- the third registration adds a suffix without renaming
  have g2tr : dictGet (register_tool (register_tool st n m1 f1) n m2 f2).name_tracker n =
      some [(m1, n ++ "_" ++ m1), (m2, n ++ "_" ++ m2)] := by
    rw [e2]
    exact dictGet_dictSet_self _ _ _
  have e3 := register_tool_no_rename m3 f3 g2tr
    (fun h => suffix_ne_base n m1 h)
  have g3k3 : dictGet (register_tool (register_tool (register_tool st n m1 f1) n m2 f2)
      n m3 f3).registry (n ++ "_" ++ m3) = some (mkCollisionEntry f3 m3 n) := by
    rw [e3]
    exact dictGet_dictSet_self _ _ _
  have g3k1 : dictGet (register_tool (register_tool (register_tool st n m1 f1) n m2 f2)
      n m3 f3).registry (n ++ "_" ++ m1) =
      dictGet (register_tool (register_tool st n m1 f1) n m2 f2).registry (n ++ "_" ++ m1) := by
    rw [e3]
    exact dictGet_dictSet_ne _ _ _ _ hne13
  have g3k2 : dictGet (register_tool (register_tool (register_tool st n m1 f1) n m2 f2)
      n m3 f3).registry (n ++ "_" ++ m2) =
      dictGet (register_tool (register_tool st n m1 f1) n m2 f2).registry (n ++ "_" ++ m2) := by
    rw [e3]
    exact dictGet_dictSet_ne _ _ _ _ hne23
  have g3bare : dictGet (register_tool (register_tool (register_tool st n m1 f1) n m2 f2)
      n m3 f3).registry n = none := by
    rw [e3, dictGet_dictSet_ne _ _ _ _ hne3]
    exact g2bare
  exact ⟨g1, g2bare, g2k1, g2k2, g3k3, g3k1, g3k2, g3bare⟩

theorem C2_witness :
    dictGet (register_tool ⟨[], [], [], []⟩ "foo" "m1" demoObj1).registry "foo" = some
      { function := demoObj1, docstring := demoObj1.doc, source_module := "m1",
        original_name := "foo", had_collision := false } ∧
    dictGet (register_tool (register_tool ⟨[], [], [], []⟩ "foo" "m1" demoObj1)
      "foo" "m2" demoObj2).registry "foo" = none ∧
    dictGet (register_tool (register_tool ⟨[], [], [], []⟩ "foo" "m1" demoObj1)
      "foo" "m2" demoObj2).registry ("foo" ++ "_" ++ "m1") = some
      { function := demoObj1, docstring := demoObj1.doc, source_module := "m1",
        original_name := "foo", had_collision := true } ∧
    dictGet (register_tool (register_tool ⟨[], [], [], []⟩ "foo" "m1" demoObj1)
      "foo" "m2" demoObj2).registry ("foo" ++ "_" ++ "m2") =
        some (mkCollisionEntry demoObj2 "m2" "foo") ∧
    dictGet (register_tool (register_tool (register_tool ⟨[], [], [], []⟩ "foo" "m1" demoObj1)
      "foo" "m2" demoObj2) "foo" "m3" demoObj11).registry ("foo" ++ "_" ++ "m3") =
        some (mkCollisionEntry demoObj11 "m3" "foo") ∧
    dictGet (register_tool (register_tool (register_tool ⟨[], [], [], []⟩ "foo" "m1" demoObj1)
      "foo" "m2" demoObj2) "foo" "m3" demoObj11).registry ("foo" ++ "_" ++ "m1") =
      dictGet (register_tool (register_tool ⟨[], [], [], []⟩ "foo" "m1" demoObj1)
        "foo" "m2" demoObj2).registry ("foo" ++ "_" ++ "m1") ∧
    dictGet (register_tool (register_tool (register_tool ⟨[], [], [], []⟩ "foo" "m1" demoObj1)
      "foo" "m2" demoObj2) "foo" "m3" demoObj11).registry ("foo" ++ "_" ++ "m2") =
      dictGet (register_tool (register_tool ⟨[], [], [], []⟩ "foo" "m1" demoObj1)
        "foo" "m2" demoObj2).registry ("foo" ++ "_" ++ "m2") ∧
    dictGet (register_tool (register_tool (register_tool ⟨[], [], [], []⟩ "foo" "m1" demoObj1)
      "foo" "m2" demoObj2) "foo" "m3" demoObj11).registry "foo" = none :=
  C2_collision_sequence ⟨[], [], [], []⟩ "foo" "m1" "m2" "m3" demoObj1 demoObj2 demoObj11
    (by decide) (by decide) (by decide) (by decide) (by decide)

/-! ## C3 -/

/-- A candidate module whose execution raises. -/
def badCandidate : Candidate :=
  ⟨"root/modules/bad.py", ["root", "modules", "bad.py"], "root/modules/bad.py", "bad",
    ReadOutcome.parseOk⟩

/-- Scan with a failing module followed by a valid one. -/
def mixedEnv : Env :=
  { valid_dirs := [["root", "modules"]],
    candidates := [badCandidate, alphaCandidate],
    oracle := fun p =>
      if p = "root/modules/bad.py" then LoadOutcome.err "boom"
      else if p = "root/modules/alpha.py" then LoadOutcome.ok alphaNs
      else LoadOutcome.skip }

/-- C3 counterexample: during a full reload the execution failure of the
first module propagates out of the batch (the loading loop of
`reload_all_modules` has no try/except): nothing is recorded in the
rejection log and the later valid module `alpha` is never loaded —
contradicting the claim that in every batch load path the failure is
caught, recorded as `import_error`, and loading continues. -/
theorem C3_counterexample :
    (reload_all_modules mixedEnv ⟨[], [], [], []⟩).2 = Except.error "boom" ∧
    (reload_all_modules mixedEnv ⟨[], [], [], []⟩).1.rejected_modules = [] ∧
    (reload_all_modules mixedEnv ⟨[], [], [], []⟩).1.loaded_mods = [] :=
  ⟨rfl, by decide, by decide⟩

/-- C3 amended: at startup the loading loop catches an execution
failure, records `(path, import_error: detail)` in the rejection log and
continues with the remaining candidates, so one broken module never
blocks the others; during a full reload the loading loop has no handler,
so the first execution failure propagates, aborts the remaining loads,
and records nothing in the rejection log. -/
theorem C3_amended :
    (∀ (oracle : String → LoadOutcome) (st : HandlerState) (ms1 : List Candidate)
      (c : Candidate) (ms2 : List Candidate) (e : String),
      oracle c.resolvedStr = LoadOutcome.err e →
      List.foldl (startupLoadStep oracle) st (ms1 ++ c :: ms2) =
        List.foldl (startupLoadStep oracle)
          { List.foldl (startupLoadStep oracle) st ms1 with
            rejected_modules :=
              (List.foldl (startupLoadStep oracle) st ms1).rejected_modules
                ++ [(c.resolvedStr, "import_error: " ++ e)] } ms2) ∧
    (∀ (oracle : String → LoadOutcome) (st0 : HandlerState) (ms1 : List Candidate)
      (c : Candidate) (ms2 : List Candidate) (e : String),
      oracle c.resolvedStr = LoadOutcome.err e →
      (List.foldl (reloadAllLoadStep oracle) (st0, none) ms1).2 = none →
      List.foldl (reloadAllLoadStep oracle) (st0, none) (ms1 ++ c :: ms2) =
        ((List.foldl (reloadAllLoadStep oracle) (st0, none) ms1).1, some e) ∧
      ((List.foldl (reloadAllLoadStep oracle) (st0, none) (ms1 ++ c :: ms2)).1).rejected_modules
        = st0.rejected_modules) := by
  constructor
  · intro oracle st ms1 c ms2 e he
    rw [List.foldl_append, List.foldl_cons]
    congr 1
    unfold startupLoadStep
    rw [he]
  · intro oracle st0 ms1 c ms2 e he h2
    have hacc : List.foldl (reloadAllLoadStep oracle) (st0, none) ms1 =
        ((List.foldl (reloadAllLoadStep oracle) (st0, none) ms1).1, none) := by
      conv_lhs => rw [← Prod.mk.eta
        (p := List.foldl (reloadAllLoadStep oracle) (st0, none) ms1)]
      rw [h2]
    have hstep : reloadAllLoadStep oracle
        ((List.foldl (reloadAllLoadStep oracle) (st0, none) ms1).1, none) c =
        ((List.foldl (reloadAllLoadStep oracle) (st0, none) ms1).1, some e) := by
      simp only [reloadAllLoadStep, he]
    have hmain : List.foldl (reloadAllLoadStep oracle) (st0, none) (ms1 ++ c :: ms2) =
        ((List.foldl (reloadAllLoadStep oracle) (st0, none) ms1).1, some e) := by
      rw [List.foldl_append, List.foldl_cons, hacc, hstep]
      exact reloadall_fold_absorb oracle ms2 _ e
    refine ⟨hmain, ?_⟩
    rw [hmain]
    have h3 := reloadall_fold_rejections oracle ms1 (st0, none)
    rw [hacc] at h3
    exact h3

/-- The empty handler state used as a starting point in demonstrations. -/
def emptyState : HandlerState := ⟨[], [], [], []⟩

/-- State reached by the startup loader before hitting the failing
candidate in the demonstration of C3 (nothing precedes it). -/
def beforeBad : HandlerState :=
  List.foldl (startupLoadStep mixedEnv.oracle) emptyState []

theorem C3_witness :
    List.foldl (startupLoadStep mixedEnv.oracle) emptyState
      ([] ++ badCandidate :: [alphaCandidate]) =
      List.foldl (startupLoadStep mixedEnv.oracle)
        { beforeBad with
          rejected_modules := beforeBad.rejected_modules
            ++ [(badCandidate.resolvedStr, "import_error: " ++ "boom")] }
        [alphaCandidate] ∧
    List.foldl (reloadAllLoadStep mixedEnv.oracle) (emptyState, none)
      ([] ++ badCandidate :: [alphaCandidate]) =
      ((List.foldl (reloadAllLoadStep mixedEnv.oracle) (emptyState, none) []).1,
        some "boom") :=
  ⟨C3_amended.1 mixedEnv.oracle emptyState [] badCandidate [alphaCandidate] "boom"
    (by decide),
   (C3_amended.2 mixedEnv.oracle emptyState [] badCandidate [alphaCandidate] "boom"
    (by decide) (by decide)).1⟩

/-! ## C8 -/

/-- C8: `reload_all_modules` first clears all four state components, so
its outcome is independent of the prior state — no pre-reload history
survives; afterwards every registry row originates from a currently
accepted candidate whose execution succeeded (with an original name
passing the current filter of that namespace), and the rejection log is
exactly what the current validation pass produces. -/
theorem C8_full_reload_resets :
    (∀ (env : Env) (st st' : HandlerState),
      reload_all_modules env st = reload_all_modules env st') ∧
    (∀ (env : Env) (st : HandlerState) (p : String × ToolEntry),
      p ∈ (reload_all_modules env st).1.registry →
      ∃ c ∈ (validateCandidates env.valid_dirs env.candidates).1, ∃ ns,
        env.oracle c.resolvedStr = LoadOutcome.ok ns ∧
        p.2.source_module = c.stem ∧ p.2.original_name ∈ cleanReloadAll ns) ∧
    (∀ (env : Env) (st : HandlerState),
      (reload_all_modules env st).1.rejected_modules =
        (validateCandidates env.valid_dirs env.candidates).2) := by
  refine ⟨fun env st st' => rfl, fun env st p hp => ?_, fun env st => ?_⟩
  · simp only [reload_all_modules] at hp
    rcases reloadall_fold_registry_origin env.oracle _ _ p hp with ⟨q, hq, _, _⟩ | h
    · simp at hq
    · exact h
  · simp only [reload_all_modules]
    exact reloadall_fold_rejections env.oracle _ _

/-- The registry row that the demo module `alpha` gets for `bar`. -/
def barEntry : ToolEntry :=
  { function := demoObj2, docstring := none, source_module := "alpha",
    original_name := "bar", had_collision := false }

theorem C8_witness :
    ∃ c ∈ (validateCandidates alphaEnv.valid_dirs alphaEnv.candidates).1, ∃ ns,
      alphaEnv.oracle c.resolvedStr = LoadOutcome.ok ns ∧
      "alpha" = c.stem ∧ "bar" ∈ cleanReloadAll ns :=
  C8_full_reload_resets.2.1 alphaEnv ⟨[], [], [], []⟩ ("bar", barEntry) (by decide)

/-! ## C4 -/

/-- C4 counterexample: module `alpha` starts with bare-keyed tools `bar`
and `foo`; a successful partial reload that merely drops `bar` reports
`tools_removed = [bar, foo]` and `tools_added = [foo_alpha]`:
re-registration goes through the collision branch because the tracker
already knows `foo`, so the surviving tool is re-keyed with a suffix
instead of keeping its bare key — while the claim demanded removed =
exactly the dropped key and added = empty. -/
theorem C4_counterexample :
    (reload_module alphaState "alpha" (Except.ok alphaNs2)).2 =
      ReloadResult.success "alpha" ["foo_alpha"] ["bar", "foo"]
        (some "Consider reload_all() to rebuild collision detection") := by decide

/-- C4 amended: the reported sets are as claimed provided every surviving
tool of the module is already registered under its suffixed key
`name_M` (so re-registration overwrites nothing and renames nothing):
then a successful partial reload that drops exactly one tool reports
`removed` = that tool's final key only, `added` = empty, and every
registry row of every other module — key, callable and metadata — is
unchanged. -/
theorem C4_amended (st : HandlerState) (M dKey : String) (ns_old ns_new : PyModule)
    (hload : dictGet st.loaded_mods M = some ns_old)
    (hnd : (st.registry.map Prod.fst).Nodup)
    (hnn : (cleanReloadOne ns_new).Nodup)
    (hdk : ∃ edk, dictGet st.registry dKey = some edk ∧ edk.source_module = M)
    (hdknew : dKey ∉ (cleanReloadOne ns_new).map (fun n => n ++ "_" ++ M))
    (hsrc : ∀ p ∈ st.registry, p.2.source_module = M →
      p.1 = dKey ∨ p.1 ∈ (cleanReloadOne ns_new).map (fun n => n ++ "_" ++ M))
    (hsurv : ∀ n ∈ cleanReloadOne ns_new, ∃ e,
      dictGet st.registry (n ++ "_" ++ M) = some e ∧ e.source_module = M)
    (htr : ∀ n ∈ cleanReloadOne ns_new, ∃ fm fn rest,
      dictGet st.name_tracker n = some ((fm, fn) :: rest) ∧ fn ≠ n) :
    (reload_module st M (Except.ok ns_new)).2 =
      ReloadResult.success M [] [dKey]
        (some "Consider reload_all() to rebuild collision detection") ∧
    (reload_module st M (Except.ok ns_new)).1.registry.filter
        (fun p => !(p.2.source_module == M)) =
      st.registry.filter (fun p => !(p.2.source_module == M)) := by
  -- abbreviations
  set names := cleanReloadOne ns_new with hnames
  set old := (st.registry.filter (fun p => p.2.source_module == M)).map Prod.fst with hold
  set newRows :=
    names.map (fun n => (n ++ "_" ++ M, mkCollisionEntry (getattrD ns_new n) M n)) with hrows
  -- characterization of the old key list
  have hOldChar : ∀ k, k ∈ old ↔ ∃ p ∈ st.registry, p.1 = k ∧ p.2.source_module = M := by
    intro k
    rw [hold]
    constructor
    · intro hk
      rcases List.mem_map.mp hk with ⟨p, hp, rfl⟩
      rcases List.mem_filter.mp hp with ⟨hp1, hp2⟩
      exact ⟨p, hp1, rfl, beq_iff_eq.mp hp2⟩
    · rintro ⟨p, hp, rfl, hpM⟩
      exact List.mem_map_of_mem _ (List.mem_filter.mpr ⟨hp, beq_iff_eq.mpr hpM⟩)
  have hOldNodup : old.Nodup := by
    rw [hold]
    exact ((List.filter_sublist st.registry).map Prod.fst).nodup hnd
  -- every surviving suffixed key is among the deleted old keys
  have hMkeys : ∀ n ∈ names, (n ++ "_" ++ M) ∈ old := by
    intro n hn
    rcases hsurv n hn with ⟨e, hge, heM⟩
    exact (hOldChar _).mpr ⟨(n ++ "_" ++ M, e), dictGet_mem hge, rfl, heM⟩
  -- the state after deleting the old rows
  have hstB : List.foldl dictPop st.registry old =
      st.registry.filter (fun p => !old.contains p.1) :=
    foldl_dictPop_eq_filter hnd old
  have hBfresh : ∀ n ∈ names,
      dictGet (st.registry.filter (fun p => !old.contains p.1)) (n ++ "_" ++ M) = none := by
    intro n hn
    rw [dictGet_eq_none_iff]
    intro p hp hpk
    rcases List.mem_filter.mp hp with ⟨hp1, hp2⟩
    rw [hpk] at hp2
    rw [contains_iff_mem.mpr (hMkeys n hn)] at hp2
    simp at hp2
  -- no row of module M survives the deletion
  have hBnoM : (st.registry.filter (fun p => !old.contains p.1)).filter
      (fun p => p.2.source_module == M) = [] := by
    rw [List.filter_eq_nil_iff]
    intro p hp
    rcases List.mem_filter.mp hp with ⟨hp1, hp2⟩
    intro hpM
    have : p.1 ∈ old := (hOldChar _).mpr ⟨p, hp1, rfl, beq_iff_eq.mp hpM⟩
    rw [contains_iff_mem.mpr this] at hp2
    simp at hp2
  -- rows of other modules are untouched by the deletion
  have hBother : (st.registry.filter (fun p => !old.contains p.1)).filter
      (fun p => !(p.2.source_module == M)) =
      st.registry.filter (fun p => !(p.2.source_module == M)) := by
    rw [List.filter_filter]
    apply List.filter_congr
    intro p hp
    by_cases hpM : p.2.source_module = M
    · simp [hpM]
    · have hnotold : p.1 ∉ old := by
        intro hpk
        rcases (hOldChar _).mp hpk with ⟨q, hq, hqk, hqM⟩
        have := nodup_keys_inj hnd hp hq hqk.symm
        rw [this] at hpM
        exact hpM hqM
      have h1 : old.contains p.1 = false := by
        cases hc : old.contains p.1
        · rfl
        · exact absurd (contains_iff_mem.mp hc) hnotold
      simp [hpM, h1, hnotold]
  -- shape of the whole successful reload
  rw [reload_module_ok ns_new hload]
  dsimp only
  rw [hstB]
  set stB := HandlerState.mk (st.registry.filter (fun p => !old.contains p.1))
    st.name_tracker (dictSet st.loaded_mods M ns_new) st.rejected_modules with hstBdef
  -- the registration loop appends exactly the suffixed rows
  have htrB : ∀ n ∈ names, ∃ fm fn rest,
      dictGet stB.name_tracker n = some ((fm, fn) :: rest) ∧ fn ≠ n := htr
  have hfreshB : ∀ n ∈ names, dictGet stB.registry (n ++ "_" ++ M) = none := hBfresh
  have hreg := registerModule_suffix_append M ns_new names stB hnn htrB hfreshB
  rw [hreg]
  -- the new key list for module M
  have hrowsM : newRows.filter (fun p => p.2.source_module == M) = newRows := by
    rw [List.filter_eq_self]
    intro p hp
    rcases List.mem_map.mp hp with ⟨n, _, rfl⟩
    exact beq_iff_eq.mpr rfl
  have hBnoM2 : stB.registry.filter (fun p => p.2.source_module == M) = [] := hBnoM
  have hnew : ((stB.registry ++
      names.map (fun n => (n ++ "_" ++ M, mkCollisionEntry (getattrD ns_new n) M n))).filter
      (fun p => p.2.source_module == M)).map Prod.fst =
      names.map (fun n => n ++ "_" ++ M) := by
    rw [List.filter_append, hBnoM2, ← hrows, hrowsM, List.nil_append, hrows, List.map_map]
    rfl
  rw [hnew]
  -- added is empty
  have hadded : (names.map (fun n => n ++ "_" ++ M)).filter
      (fun k => !old.contains k) = [] := by
    rw [List.filter_eq_nil_iff]
    intro k hk
    rcases List.mem_map.mp hk with ⟨n, hn, rfl⟩
    rw [contains_iff_mem.mpr (hMkeys n hn)]
    simp
  -- removed is exactly the dropped key
  have hdInOld : dKey ∈ old := by
    rcases hdk with ⟨edk, hge, heM⟩
    exact (hOldChar _).mpr ⟨(dKey, edk), dictGet_mem hge, rfl, heM⟩
  have hdNotNew : (names.map (fun n => n ++ "_" ++ M)).contains dKey = false := by
    cases hc : (names.map (fun n => n ++ "_" ++ M)).contains dKey
    · rfl
    · exact absurd (contains_iff_mem.mp hc) hdknew
  have hremoved : old.filter
      (fun k => !(names.map (fun n => n ++ "_" ++ M)).contains k) = [dKey] := by
    apply nodup_all_eq ((List.filter_sublist old).nodup hOldNodup)
    · intro x hx
      rcases List.mem_filter.mp hx with ⟨hx1, hx2⟩
      rcases (hOldChar _).mp hx1 with ⟨p, hp, hpk, hpM⟩
      rcases hsrc p hp hpM with h | h
      · rw [← hpk, h]
      · rw [← hpk] at hx2
        rw [contains_iff_mem.mpr h] at hx2
        simp at hx2
    · exact List.mem_filter.mpr ⟨hdInOld, by rw [hdNotNew]; rfl⟩
  rw [hadded, hremoved]
  constructor
  · simp
  · rw [List.filter_append]
    have hrowsOther :
        (names.map (fun n => (n ++ "_" ++ M, mkCollisionEntry (getattrD ns_new n) M n))).filter
          (fun p => !(p.2.source_module == M)) = [] := by
      rw [List.filter_eq_nil_iff]
      intro p hp
      rcases List.mem_map.mp hp with ⟨n, _, rfl⟩
      simp [mkCollisionEntry]
    rw [hrowsOther, List.append_nil]
    have hBother2 : stB.registry.filter (fun p => !(p.2.source_module == M)) =
        st.registry.filter (fun p => !(p.2.source_module == M)) := hBother
    exact hBother2

/-- Handler state whose module `gamma` owns two suffixed keys (after an
earlier collision with module `delta` on `foo`), plus a surviving row of
`delta`. -/
def gammaState : HandlerState :=
  { registry :=
      [("foo_gamma", ⟨⟨21, true, none⟩, none, "gamma", "foo", true⟩),
       ("bar_gamma", ⟨⟨22, true, none⟩, none, "gamma", "bar", true⟩),
       ("foo_delta", ⟨⟨23, true, none⟩, none, "delta", "foo", true⟩)],
    name_tracker :=
      [("foo", [("delta", "foo_delta"), ("gamma", "foo_gamma")]),
       ("bar", [("gamma", "bar_gamma"), ("delta", "bar_delta")])],
    loaded_mods := [("gamma", [("foo", ⟨21, true, none⟩), ("bar", ⟨22, true, none⟩)])],
    rejected_modules := [] }

/-- The namespace of `gamma` after dropping `bar`. -/
def gammaNs2 : PyModule := [("foo", ⟨31, true, none⟩)]

theorem C4_witness :
    (reload_module gammaState "gamma" (Except.ok gammaNs2)).2 =
      ReloadResult.success "gamma" [] ["bar_gamma"]
        (some "Consider reload_all() to rebuild collision detection") ∧
    (reload_module gammaState "gamma" (Except.ok gammaNs2)).1.registry.filter
        (fun p => !(p.2.source_module == "gamma")) =
      gammaState.registry.filter (fun p => !(p.2.source_module == "gamma")) :=
  C4_amended gammaState "gamma" "bar_gamma"
    [("foo", ⟨21, true, none⟩), ("bar", ⟨22, true, none⟩)] gammaNs2
    (by decide)
    (by decide)
    (by decide)
    ⟨⟨⟨22, true, none⟩, none, "gamma", "bar", true⟩, by decide, by decide⟩
    (by decide)
    (by decide)
    (fun n hn => by
      have he : cleanReloadOne gammaNs2 = ["foo"] := by decide
      rw [he] at hn
      rcases List.mem_singleton.mp hn with rfl
      exact ⟨⟨⟨21, true, none⟩, none, "gamma", "foo", true⟩, by decide, by decide⟩)
    (fun n hn => by
      have he : cleanReloadOne gammaNs2 = ["foo"] := by decide
      rw [he] at hn
      rcases List.mem_singleton.mp hn with rfl
      exact ⟨"delta", "foo_delta", [("gamma", "foo_gamma")], by decide, by decide⟩)

end BlackOrchid
